import Mathlib

/-!
Shallow embedding of `src/relayer.py` (doflamingo-ing/Relay).

The relayer accepts a sensor reading over HTTP, uploads the raw reading to
Pinata (best effort), then builds, signs and broadcasts a `storeReading`
contract transaction and waits for its receipt.  We embed the handler
`recibir_lectura` and the helper `subir_a_pinata` as pure Lean functions
over an explicit environment `Env` that stands for the external
collaborators (Pinata, the JSON-RPC node), returning the computed result
together with an explicit trace of outbound network effects.

Python decimal values are modelled by `ℚ`; for every concrete literal used
in the claims the binary64 computation of the source and the exact rational
computation agree, which we note where it matters.
-/

set_option maxRecDepth 4000

/-- JSON-like values as obtained from `await req.json()` in the handler.
Arrays and objects are omitted: no claim mentions them, and for the
coercions below they would behave like `null` (a `TypeError`). -/
inductive JVal where
  | s (v : String)
  | num (v : ℚ)
  | bool (b : Bool)
  | null
deriving DecidableEq, Repr

/-- Errors the handler can raise.  `keyError` models Python `KeyError`
(raised by `data["field"]` and carrying the key), `valueError` models
`ValueError` from `float(...)` / `int(...)` on an unparsable string
(carrying the offending string, not the field), `typeError` models
`TypeError` from coercing a value of an unsupported type (carrying the
Python type name), and `timeExhausted` models
`web3.exceptions.TimeExhausted` from `wait_for_transaction_receipt`. -/
inductive RelayError where
  | keyError (field : String)
  | valueError (v : String)
  | typeError (tyName : String)
  | timeExhausted
deriving DecidableEq, Repr

/-- Numeric value of a list of decimal digit characters. -/
def digitsVal (cs : List Char) : ℕ :=
  cs.foldl (fun a c => 10 * a + (c.toNat - 48)) 0

/-- A nonempty list of decimal digit characters. -/
def isDigits (cs : List Char) : Bool :=
  !cs.isEmpty && cs.all (·.isDigit)

/-- Unsigned decimal literal of the shape `digits`, `digits.digits`,
`.digits` or `digits.` as accepted by Python `float` (exponent, infinity
and underscore forms are omitted: no claim exercises them).  The value
`intpart.fracpart` is the exact rational
`(intpart * 10 ^ k + fracpart) / 10 ^ k` with `k` fractional digits. -/
def parseUnsignedDec (s : String) : Option ℚ :=
  match s.splitOn "." with
  | [intPart] =>
      if isDigits intPart.toList then some (digitsVal intPart.toList) else none
  | [intPart, fracPart] =>
      let ic := intPart.toList
      let fc := fracPart.toList
      if ic.all (·.isDigit) && fc.all (·.isDigit) && (!ic.isEmpty || !fc.isEmpty) then
        some (Rat.divInt (digitsVal ic * 10 ^ fc.length + digitsVal fc) (10 ^ fc.length))
      else none
  | _ => none

/-- Python `float(s)` on a string: optional sign around an unsigned
decimal literal, surrounding whitespace stripped. -/
def pyParseFloat (s : String) : Option ℚ :=
  match s.trim.toList with
  | '-' :: rest => (parseUnsignedDec (String.mk rest)).map Neg.neg
  | '+' :: rest => parseUnsignedDec (String.mk rest)
  | _ => parseUnsignedDec s.trim

/-- Python `int(s)` on a string: optional sign and decimal digits only. -/
def pyParseInt (s : String) : Option ℤ :=
  match s.trim.toList with
  | '-' :: rest => if isDigits rest then some (-(digitsVal rest : ℤ)) else none
  | '+' :: rest => if isDigits rest then some (digitsVal rest) else none
  | cs => if isDigits cs then some (digitsVal cs) else none

/-- Python type name of a `JVal`, as it appears in a `TypeError`. -/
def pyTypeName : JVal → String
  | .s _ => "str"
  | .num _ => "float"
  | .bool _ => "bool"
  | .null => "NoneType"

/-- Python `float(x)`: numbers pass through, booleans coerce to 0/1,
strings are parsed (raising `ValueError` on failure), `None` raises
`TypeError`. -/
def pyFloat : JVal → Except RelayError ℚ
  | .num q => .ok q
  | .bool b => .ok (if b then 1 else 0)
  | .s v =>
      match pyParseFloat v with
      | some q => .ok q
      | none => .error (.valueError v)
  | .null => .error (.typeError "NoneType")

/-- Truncation of `q` toward zero, the behaviour of Python `int` on a
float: the T-division of the numerator by the denominator. -/
def truncToward0 (q : ℚ) : ℤ :=
  q.num.tdiv q.den

/-- Python `int(x)`: numbers truncate toward zero, booleans coerce to 0/1,
strings are parsed as integers (raising `ValueError` on failure), `None`
raises `TypeError`. -/
def pyInt : JVal → Except RelayError ℤ
  | .num q => .ok (truncToward0 q)
  | .bool b => .ok (if b then 1 else 0)
  | .s v =>
      match pyParseInt v with
      | some n => .ok n
      | none => .error (.valueError v)
  | .null => .error (.typeError "NoneType")

/-- Python 3 `round` to an integer: nearest integer, ties to even.  The
fractional part `q - ⌊q⌋` equals `(q.num - ⌊q⌋ * q.den) / q.den`, so its
comparison with one half is the integer comparison of twice that
numerator against the denominator; `pyRound_eq_floor_rule` below proves
this implementation equal to the textbook rule. -/
def pyRound (q : ℚ) : ℤ :=
  let f := q.floor
  let fracNum := q.num - f * q.den
  if 2 * fracNum < q.den then f
  else if (q.den : ℤ) < 2 * fracNum then f + 1
  else if f % 2 = 0 then f else f + 1

/-- Exact multiplication of a rational by ten, written on the numerator
so that it evaluates by kernel reduction; `mul10_eq` below proves it
equal to `x * 10`. -/
def mul10 (x : ℚ) : ℚ := Rat.divInt (x.num * 10) x.den

/-- The fixed-point scaling applied at lines 107 and 108 of the source:
`int(round(x * 10))`. -/
def scale (x : ℚ) : ℤ := pyRound (mul10 x)

/-- The raw request body: each of the four keys the handler reads is
present with a `JVal` or absent. -/
structure RawPayload where
  device_id : Option JVal
  temperature : Option JVal
  humidity : Option JVal
  timestamp_ms : Option JVal
deriving DecidableEq, Repr

/-- Python `data["key"]`: the value, or a `KeyError` carrying the key. -/
def getItem : Option JVal → String → Except RelayError JVal
  | some v, _ => .ok v
  | none, key => .error (.keyError key)

/-- The validated reading as the handler holds it after lines 101 to 104. -/
structure Reading where
  device_id : JVal
  temp_c : ℚ
  hum : ℚ
  timestamp_ms : ℤ
deriving DecidableEq, Repr

/-- Lines 101 to 104 of the handler: `device_id` defaults to the string
"unknown-device", and the three required fields are fetched and coerced in
source order (temperature, humidity, timestamp_ms), the first failure
raising. -/
def parseReading (data : RawPayload) : Except RelayError Reading := do
  let device_id := data.device_id.getD (JVal.s "unknown-device")
  let temp_c ← getItem data.temperature "temperature" >>= pyFloat
  let hum ← getItem data.humidity "humidity" >>= pyFloat
  let ts ← getItem data.timestamp_ms "timestamp_ms" >>= pyInt
  pure ⟨device_id, temp_c, hum, ts⟩

/-- Outcome of the one `requests.post` to Pinata, as fixed by the mocked
environment: the post raises a transport error, or returns a non-2xx
status (so `raise_for_status` raises), or a body that is not JSON (so
`r.json()` raises), or a JSON body whose `IpfsHash` key is the given
optional string. -/
inductive PinataOutcome where
  | transportError
  | httpError (code : ℕ)
  | badBody
  | okBody (ipfsHash : Option String)
deriving DecidableEq, Repr

/-- The JSON document uploaded to Pinata, lines 111 to 116 of the source. -/
structure PinataPayload where
  device_id : JVal
  temperature_c : ℚ
  humidity_percent : ℚ
  timestamp_ms : ℤ
deriving DecidableEq, Repr

/-- Mocked external collaborators for one request: the configured Pinata
JWT (the empty string models an absent `PINATA_JWT`), the behaviour of the
Pinata endpoint, the chain values the node reports
(transaction count for the account, gas price), the configured chain id,
the transaction hash returned by the node on broadcast, and the receipt
the node reports at each polling step (`none` while unmined). -/
structure Env where
  pinataJwt : String
  pinata : PinataOutcome
  txCount : ℕ
  gasPrice : ℕ
  chainId : ℕ
  txHash : String
  receiptAt : ℕ → Option ℕ

/-- The transaction built at lines 122 to 132: the five `storeReading`
arguments plus nonce, gas limit, gas price and chain id. -/
structure Tx where
  deviceId : JVal
  temperatureTimes10 : ℤ
  humidityTimes10 : ℤ
  timestampMs : ℤ
  cid : String
  nonce : ℕ
  gas : ℕ
  gasPrice : ℕ
  chainId : ℕ
deriving DecidableEq, Repr

/-- Outbound network effects the handler can perform, in trace order. -/
inductive Effect where
  | pinataPost (payload : PinataPayload)
  | getTransactionCount
  | getGasPrice
  | sendRawTransaction (tx : Tx)
  | waitForReceipt (txHash : String)
deriving DecidableEq, Repr

/-- Lines 62 to 84 of the source, `subir_a_pinata`: with an empty JWT the
post is skipped and `None` returned; otherwise one post happens and any
exception is caught and turned into `None`, while a JSON body yields
`res.get("IpfsHash")`. Returns the result together with the effects
performed. -/
def subir_a_pinata (env : Env) (payload : PinataPayload) : Option String × List Effect :=
  if env.pinataJwt = "" then (none, [])
  else
    match env.pinata with
    | .transportError => (none, [.pinataPost payload])
    | .httpError _ => (none, [.pinataPost payload])
    | .badBody => (none, [.pinataPost payload])
    | .okBody h => (h, [.pinataPost payload])

/-- Number of polls performed by `w3.eth.wait_for_transaction_receipt`
with its default parameters: timeout 120 s at poll latency 0.1 s. -/
def wait_fuel : ℕ := 1200

/-- Line 140, `w3.eth.wait_for_transaction_receipt(tx_hash)`: poll the
node a bounded number of times, return the first receipt block number
seen, and raise `TimeExhausted` when the bound elapses with no receipt. -/
def wait_for_transaction_receipt (receiptAt : ℕ → Option ℕ) (fuel : ℕ) :
    Except RelayError ℕ :=
  match (List.range fuel).findSome? receiptAt with
  | some b => .ok b
  | none => .error .timeExhausted

/-- The JSON response of the handler on success, lines 143 to 148. -/
structure Response where
  status : String
  tx_hash : String
  block : ℕ
  cid : String
deriving DecidableEq, Repr

/-- The Pinata payload built at lines 111 to 116 from the parsed fields. -/
def pinataPayloadOf (r : Reading) : PinataPayload :=
  ⟨r.device_id, r.temp_c, r.hum, r.timestamp_ms⟩

/-- The transaction of lines 122 to 132: `storeReading(device_id,
temp_times10, hum_times10, timestamp_ms, cid)` with `nonce` from
`get_transaction_count`, a fixed gas limit of 300000, the gas price the
node reports and the configured chain id. -/
def buildTx (env : Env) (r : Reading) (cid : String) : Tx :=
  { deviceId := r.device_id
    temperatureTimes10 := scale r.temp_c
    humidityTimes10 := scale r.hum
    timestampMs := r.timestamp_ms
    cid := cid
    nonce := env.txCount
    gas := 300000
    gasPrice := env.gasPrice
    chainId := env.chainId }

/-- The cid the handler uses downstream: line 117,
`subir_a_pinata(...) or ""`. -/
def cidOf (env : Env) (r : Reading) : String :=
  ((subir_a_pinata env (pinataPayloadOf r)).1).getD ""

/-- The ledger-side effects of one request, in source order: nonce query
(line 120), gas price query (line 129, during build), broadcast
(line 137), receipt wait (line 140). -/
def ledgerTrace (env : Env) (r : Reading) : List Effect :=
  [Effect.getTransactionCount, Effect.getGasPrice,
   Effect.sendRawTransaction (buildTx env r (cidOf env r)),
   Effect.waitForReceipt env.txHash]

/-- Lines 88 to 148 of the source, the handler `recibir_lectura`:
validate and coerce the fields, upload the reading to Pinata (best
effort), build and broadcast the `storeReading` transaction, wait for the
receipt and assemble the response.  An error anywhere propagates as the
first component; the second component is the trace of outbound effects
performed up to completion or failure. -/
def recibir_lectura (env : Env) (data : RawPayload) :
    Except RelayError Response × List Effect :=
  match parseReading data with
  | .error e => (.error e, [])
  | .ok r =>
      let cid := cidOf env r
      let eff := (subir_a_pinata env (pinataPayloadOf r)).2 ++ ledgerTrace env r
      match wait_for_transaction_receipt env.receiptAt wait_fuel with
      | .error e => (.error e, eff)
      | .ok b =>
          (.ok { status := "ok", tx_hash := env.txHash, block := b, cid := cid }, eff)

/-- The field named by an error, when it names one: only `KeyError`
carries a field name. -/
def errorField : RelayError → Option String
  | .keyError f => some f
  | _ => none

/-- The Pinata outcomes in which the archive step yields no CID even
though the call was attempted: transport error, HTTP error status,
malformed body, or a JSON body without an `IpfsHash` key. -/
def archiveFailed : PinataOutcome → Prop := fun o =>
  o = .transportError ∨ (∃ c, o = .httpError c) ∨ o = .badBody ∨ o = .okBody none

/-!
Interleaving model for the concurrency claim.  The handler performs, per
request, the ledger steps of lines 120 to 140 with no synchronization:
read the account transaction count from the latest block, broadcast the
signed transaction, then poll for the receipt.  We model two such
requests racing over the shared account state of the node.  The node is
the external collaborator of the spec: it reports the mined transaction
count, keeps a mempool of accepted transactions of the account, rejects a
broadcast whose nonce is below the mined count (nonce too low) or already
present in the mempool (same-price replacement), and mines pending
transactions in nonce order.  A rejected broadcast raises, which the
handler propagates; we record it as the `failed` outcome, the
`NonceConflict` of the spec taxonomy.
-/

/-- Progress of one request through the unsynchronized ledger steps of
the handler: about to read the nonce, holding a read nonce, broadcast
accepted, receipt obtained (success), or broadcast rejected by the node
(the nonce conflict outcome). -/
inductive ReqState where
  | start
  | gotNonce (n : ℕ)
  | broadcasted (n : ℕ)
  | done (n : ℕ)
  | failed (n : ℕ)
deriving DecidableEq, Repr

/-- Shared state of two concurrent requests: the mined transaction count
of the account, the mempool nonces of the account, and the progress of
each request. -/
structure RelaySt where
  mined : ℕ
  pending : List ℕ
  r1 : ReqState
  r2 : ReqState
deriving DecidableEq, Repr

/-- The node accepts a broadcast for the account when the nonce is not
below the mined transaction count and no pending transaction of the
account already uses it (an equal-fee replacement is rejected as
underpriced). -/
def nodeAccepts (mined : ℕ) (pending : List ℕ) (n : ℕ) : Bool :=
  decide (mined ≤ n) && !(pending.contains n)

/-- One atomic step of the interleaved execution of two requests: either
request reads the transaction count of the latest block (line 120),
either request broadcasts and is accepted or rejected (line 137), the
node mines the next pending transaction, or either request observes the
receipt of its mined transaction (line 140). -/
inductive RaceStep : RelaySt → RelaySt → Prop where
  | read1 (s : RelaySt) (h : s.r1 = .start) :
      RaceStep s { s with r1 := .gotNonce s.mined }
  | read2 (s : RelaySt) (h : s.r2 = .start) :
      RaceStep s { s with r2 := .gotNonce s.mined }
  | sendOk1 (s : RelaySt) (n : ℕ) (h : s.r1 = .gotNonce n)
      (hacc : nodeAccepts s.mined s.pending n = true) :
      RaceStep s { s with r1 := .broadcasted n, pending := s.pending ++ [n] }
  | sendOk2 (s : RelaySt) (n : ℕ) (h : s.r2 = .gotNonce n)
      (hacc : nodeAccepts s.mined s.pending n = true) :
      RaceStep s { s with r2 := .broadcasted n, pending := s.pending ++ [n] }
  | sendFail1 (s : RelaySt) (n : ℕ) (h : s.r1 = .gotNonce n)
      (hacc : nodeAccepts s.mined s.pending n = false) :
      RaceStep s { s with r1 := .failed n }
  | sendFail2 (s : RelaySt) (n : ℕ) (h : s.r2 = .gotNonce n)
      (hacc : nodeAccepts s.mined s.pending n = false) :
      RaceStep s { s with r2 := .failed n }
  | mine (s : RelaySt) (rest : List ℕ) (h : s.pending = s.mined :: rest) :
      RaceStep s { s with mined := s.mined + 1, pending := rest }
  | receipt1 (s : RelaySt) (n : ℕ) (h : s.r1 = .broadcasted n) (hm : n < s.mined) :
      RaceStep s { s with r1 := .done n }
  | receipt2 (s : RelaySt) (n : ℕ) (h : s.r2 = .broadcasted n) (hm : n < s.mined) :
      RaceStep s { s with r2 := .done n }

/-- Initial shared state: the account has `m0` mined transactions, an
empty mempool, and both requests are about to run. -/
def initSt (m0 : ℕ) : RelaySt := ⟨m0, [], .start, .start⟩

/-- States reachable by interleaving the two requests and the node. -/
def Reach (m0 : ℕ) (s : RelaySt) : Prop :=
  Relation.ReflTransGen RaceStep (initSt m0) s

/-- A request that has come to an outcome: success or nonce conflict. -/
def finishedReq (r : ReqState) : Prop :=
  (∃ n, r = .done n) ∨ (∃ n, r = .failed n)

/-- Number of accepted broadcasts a request currently accounts for. -/
def bcount : ReqState → ℕ
  | .broadcasted _ => 1
  | .done _ => 1
  | _ => 0

/-- The request holds an accepted broadcast with nonce `n` (pending or
already mined). -/
def inflight (r : ReqState) (n : ℕ) : Prop :=
  r = .broadcasted n ∨ r = .done n

/-- Inductive invariant of the race: the mined counter never goes below
its start, the mempool is empty or holds exactly the next minable nonce,
accepted broadcasts are counted by the mined progress plus the mempool,
read nonces lie between the start and the current mined counter, accepted
nonces are mined or exactly the pending one, a failed request implies the
other request holds the accepted broadcast that caused the conflict, and
two in-flight nonces are always distinct. -/
structure RaceInv (m0 : ℕ) (s : RelaySt) : Prop where
  mined_ge : m0 ≤ s.mined
  pend : s.pending = [] ∨ s.pending = [s.mined]
  count : s.mined - m0 + s.pending.length = bcount s.r1 + bcount s.r2
  got1 : ∀ n, s.r1 = .gotNonce n → m0 ≤ n ∧ n ≤ s.mined
  got2 : ∀ n, s.r2 = .gotNonce n → m0 ≤ n ∧ n ≤ s.mined
  bd1 : ∀ n, s.r1 = .broadcasted n →
    m0 ≤ n ∧ (n < s.mined ∨ (n = s.mined ∧ s.pending = [s.mined]))
  bd2 : ∀ n, s.r2 = .broadcasted n →
    m0 ≤ n ∧ (n < s.mined ∨ (n = s.mined ∧ s.pending = [s.mined]))
  done1 : ∀ n, s.r1 = .done n → m0 ≤ n ∧ n < s.mined
  done2 : ∀ n, s.r2 = .done n → m0 ≤ n ∧ n < s.mined
  fail1 : ∀ n, s.r1 = .failed n → bcount s.r2 = 1
  fail2 : ∀ n, s.r2 = .failed n → bcount s.r1 = 1
  distinct : ∀ n₁ n₂, inflight s.r1 n₁ → inflight s.r2 n₂ → n₁ ≠ n₂

/-- The concrete valid input of the end-to-end claim:
`device_id "esp32-1", temperature 25.3, humidity 70.1,
timestamp_ms 1731000000000`.  For these literals the binary64 arithmetic
of the source and the exact rational arithmetic agree: in binary64,
`25.3 * 10` rounds to exactly `253.0` and `70.1 * 10` to exactly `701.0`. -/
def data1 : RawPayload :=
  { device_id := some (.s "esp32-1")
    temperature := some (.num (253 / 10))
    humidity := some (.num (701 / 10))
    timestamp_ms := some (.num 1731000000000) }

/-- The parsed form of `data1`. -/
def reading1 : Reading :=
  { device_id := .s "esp32-1"
    temp_c := 253 / 10
    hum := 701 / 10
    timestamp_ms := 1731000000000 }

/-- An environment with no Pinata token, a missing `IpfsHash`, and a node
that never mines: used as the concrete input of negative claims. -/
def env0 : Env :=
  { pinataJwt := ""
    pinata := .okBody none
    txCount := 0
    gasPrice := 0
    chainId := 11155111
    txHash := "0xdead"
    receiptAt := fun _ => none }

/-- A payload whose `temperature` is present but not coercible to float
(JSON `null`), the other fields valid. -/
def data0 : RawPayload :=
  { device_id := none
    temperature := some .null
    humidity := some (.num 50)
    timestamp_ms := some (.num 1) }

/-- A payload with `temperature` absent, the later fields valid. -/
def dataNoTemp : RawPayload :=
  { device_id := none
    temperature := none
    humidity := some (.num 50)
    timestamp_ms := some (.num 1) }

/-- The final state of the concrete race execution used as a witness:
request one succeeded with nonce 0, request two was rejected. -/
def raceFinal : RelaySt := ⟨1, [], .done 0, .failed 0⟩

/-- An environment in which both collaborators succeed: a Pinata token is
configured, the upload returns a CID, and the node reports the receipt at
the first poll. -/
def envW : Env :=
  { pinataJwt := "jwt"
    pinata := .okBody (some "QmTest")
    txCount := 5
    gasPrice := 7
    chainId := 11155111
    txHash := "0xabc"
    receiptAt := fun k => if k = 0 then some 123 else none }

/-- An environment whose Pinata endpoint is unreachable while the chain
works normally. -/
def envFail : Env :=
  { pinataJwt := "jwt"
    pinata := .transportError
    txCount := 5
    gasPrice := 7
    chainId := 11155111
    txHash := "0xabc"
    receiptAt := fun k => if k = 0 then some 123 else none }

/-- A valid payload with no `device_id` key. -/
def dataNoDev : RawPayload :=
  { device_id := none
    temperature := some (.num 25)
    humidity := some (.num 70)
    timestamp_ms := some (.num 5) }

/-!
Helper lemmas.  First the bridges showing the kernel-reducible arithmetic
above agrees with the textbook operations, then unfolding lemmas for the
handler used by several claims.
-/

theorem mul10_eq (x : ℚ) : mul10 x = x * 10 := by
  rw [mul10, Rat.divInt_eq_div]
  push_cast
  rw [mul_comm (x.num : ℚ) 10, mul_div_assoc, Rat.num_div_den, mul_comm]

theorem rat_floor_eq (q : ℚ) : q.floor = ⌊q⌋ := rfl

theorem rat_num_eq_mul_den (q : ℚ) : (q.num : ℚ) = q * q.den := by
  have hd : ((q.den : ℚ)) ≠ 0 := by
    exact_mod_cast q.den_nz
  have h := Rat.num_div_den q
  rw [div_eq_iff hd] at h
  exact h

theorem frac_lt_half_iff (q : ℚ) :
    2 * (q.num - ⌊q⌋ * q.den) < (q.den : ℤ) ↔ q - ⌊q⌋ < 1 / 2 := by
  have hd : (0 : ℚ) < (q.den : ℚ) := by exact_mod_cast q.pos
  have hq := rat_num_eq_mul_den q
  constructor
  · intro h
    have hc : 2 * ((q.num : ℚ) - (⌊q⌋ : ℚ) * (q.den : ℚ)) < (q.den : ℚ) := by
      exact_mod_cast h
    nlinarith [hc, hq, hd]
  · intro h
    have hc : 2 * ((q.num : ℚ) - (⌊q⌋ : ℚ) * (q.den : ℚ)) < (q.den : ℚ) := by
      nlinarith [hq, hd, h]
    exact_mod_cast hc

theorem half_lt_frac_iff (q : ℚ) :
    (q.den : ℤ) < 2 * (q.num - ⌊q⌋ * q.den) ↔ 1 / 2 < q - ⌊q⌋ := by
  have hd : (0 : ℚ) < (q.den : ℚ) := by exact_mod_cast q.pos
  have hq := rat_num_eq_mul_den q
  constructor
  · intro h
    have hc : (q.den : ℚ) < 2 * ((q.num : ℚ) - (⌊q⌋ : ℚ) * (q.den : ℚ)) := by
      exact_mod_cast h
    nlinarith [hc, hq, hd]
  · intro h
    have hc : (q.den : ℚ) < 2 * ((q.num : ℚ) - (⌊q⌋ : ℚ) * (q.den : ℚ)) := by
      nlinarith [hq, hd, h]
    exact_mod_cast hc

theorem pyRound_eq_floor_rule (q : ℚ) :
    pyRound q =
      if q - ⌊q⌋ < 1 / 2 then ⌊q⌋
      else if 1 / 2 < q - (⌊q⌋ : ℚ) then ⌊q⌋ + 1
      else if ⌊q⌋ % 2 = 0 then ⌊q⌋ else ⌊q⌋ + 1 := by
  rw [pyRound]
  simp only [rat_floor_eq]
  rw [if_congr (frac_lt_half_iff q) rfl rfl,
      if_congr (half_lt_frac_iff q) rfl rfl]

theorem lit_253_10 : (253 / 10 : ℚ) = Rat.divInt 253 10 := by
  rw [Rat.divInt_eq_div]; norm_num

theorem lit_701_10 : (701 / 10 : ℚ) = Rat.divInt 701 10 := by
  rw [Rat.divInt_eq_div]; norm_num

theorem lit_neg_1234_100 : (-1234 / 100 : ℚ) = Rat.divInt (-1234) 100 := by
  rw [Rat.divInt_eq_div]; norm_num

theorem lit_2525_100 : (2525 / 100 : ℚ) = Rat.divInt 2525 100 := by
  rw [Rat.divInt_eq_div]; norm_num

theorem scale_253 : scale (253 / 10 : ℚ) = 253 := by
  rw [lit_253_10]; decide

theorem scale_701 : scale (701 / 10 : ℚ) = 701 := by
  rw [lit_701_10]; decide

theorem subir_skip (env : Env) (payload : PinataPayload) (h : env.pinataJwt = "") :
    subir_a_pinata env payload = (none, []) := by
  simp [subir_a_pinata, h]

theorem subir_none_of_failed (env : Env) (payload : PinataPayload)
    (h : archiveFailed env.pinata) : (subir_a_pinata env payload).1 = none := by
  by_cases hj : env.pinataJwt = ""
  · simp [subir_a_pinata, hj]
  · rcases h with h | ⟨c, h⟩ | h | h <;> simp [subir_a_pinata, hj, h]

theorem subir_ok (env : Env) (payload : PinataPayload) (c : String)
    (hj : env.pinataJwt ≠ "") (h : env.pinata = .okBody (some c)) :
    subir_a_pinata env payload = (some c, [.pinataPost payload]) := by
  simp [subir_a_pinata, hj, h]

theorem recibir_invalid (env : Env) (data : RawPayload) (e : RelayError)
    (he : parseReading data = .error e) :
    recibir_lectura env data = (.error e, []) := by
  simp [recibir_lectura, he]

theorem recibir_trace (env : Env) (data : RawPayload) (r : Reading)
    (hr : parseReading data = .ok r) :
    (recibir_lectura env data).2 =
      (subir_a_pinata env (pinataPayloadOf r)).2 ++ ledgerTrace env r := by
  simp only [recibir_lectura, hr]
  rcases hw : wait_for_transaction_receipt env.receiptAt wait_fuel with e | b <;> simp [hw]

theorem recibir_ok_result (env : Env) (data : RawPayload) (r : Reading) (b : ℕ)
    (hr : parseReading data = .ok r)
    (hw : wait_for_transaction_receipt env.receiptAt wait_fuel = .ok b) :
    (recibir_lectura env data).1 =
      .ok { status := "ok", tx_hash := env.txHash, block := b, cid := cidOf env r } := by
  simp [recibir_lectura, hr, hw]

theorem recibir_err_result (env : Env) (data : RawPayload) (r : Reading) (e : RelayError)
    (hr : parseReading data = .ok r)
    (hw : wait_for_transaction_receipt env.receiptAt wait_fuel = .error e) :
    (recibir_lectura env data).1 = .error e := by
  simp [recibir_lectura, hr, hw]

theorem parseReading_missing_temp (data : RawPayload) (h : data.temperature = none) :
    parseReading data = .error (.keyError "temperature") := by
  simp [parseReading, getItem, bind, Except.bind, Functor.map, Except.map, pure, Except.pure, h]

theorem parseReading_bad_temp (data : RawPayload) (v : JVal) (e : RelayError)
    (h : data.temperature = some v) (he : pyFloat v = .error e) :
    parseReading data = .error e := by
  simp [parseReading, getItem, bind, Except.bind, Functor.map, Except.map, pure, Except.pure, h, he]

theorem parseReading_missing_hum (data : RawPayload) (v : JVal) (q : ℚ)
    (ht : data.temperature = some v) (hq : pyFloat v = .ok q)
    (h : data.humidity = none) :
    parseReading data = .error (.keyError "humidity") := by
  simp [parseReading, getItem, bind, Except.bind, Functor.map, Except.map, pure, Except.pure, ht, hq, h]

theorem parseReading_bad_hum (data : RawPayload) (v w : JVal) (q : ℚ) (e : RelayError)
    (ht : data.temperature = some v) (hq : pyFloat v = .ok q)
    (h : data.humidity = some w) (he : pyFloat w = .error e) :
    parseReading data = .error e := by
  simp [parseReading, getItem, bind, Except.bind, Functor.map, Except.map, pure, Except.pure, ht, hq, h, he]

theorem parseReading_missing_ts (data : RawPayload) (v w : JVal) (q p : ℚ)
    (ht : data.temperature = some v) (hq : pyFloat v = .ok q)
    (hh : data.humidity = some w) (hp : pyFloat w = .ok p)
    (h : data.timestamp_ms = none) :
    parseReading data = .error (.keyError "timestamp_ms") := by
  simp [parseReading, getItem, bind, Except.bind, Functor.map, Except.map, pure, Except.pure, ht, hq, hh, hp, h]

theorem parseReading_bad_ts (data : RawPayload) (v w u : JVal) (q p : ℚ) (e : RelayError)
    (ht : data.temperature = some v) (hq : pyFloat v = .ok q)
    (hh : data.humidity = some w) (hp : pyFloat w = .ok p)
    (h : data.timestamp_ms = some u) (he : pyInt u = .error e) :
    parseReading data = .error e := by
  simp [parseReading, getItem, bind, Except.bind, Functor.map, Except.map, pure, Except.pure, ht, hq, hh, hp, h, he]

theorem parseReading_ok_inv (data : RawPayload) (r : Reading)
    (hr : parseReading data = .ok r) :
    r.device_id = data.device_id.getD (JVal.s "unknown-device") ∧
    (∃ vt, data.temperature = some vt ∧ pyFloat vt = .ok r.temp_c) ∧
    (∃ vh, data.humidity = some vh ∧ pyFloat vh = .ok r.hum) ∧
    (∃ vs, data.timestamp_ms = some vs ∧ pyInt vs = .ok r.timestamp_ms) := by
  cases ht : data.temperature with
  | none => rw [parseReading_missing_temp data ht] at hr; exact absurd hr (by simp)
  | some vt =>
    cases hft : pyFloat vt with
    | error e => rw [parseReading_bad_temp data vt e ht hft] at hr; exact absurd hr (by simp)
    | ok qt =>
      cases hh : data.humidity with
      | none => rw [parseReading_missing_hum data vt qt ht hft hh] at hr; exact absurd hr (by simp)
      | some vh =>
        cases hfh : pyFloat vh with
        | error e =>
            rw [parseReading_bad_hum data vt vh qt e ht hft hh hfh] at hr
            exact absurd hr (by simp)
        | ok qh =>
          cases hs : data.timestamp_ms with
          | none =>
              rw [parseReading_missing_ts data vt vh qt qh ht hft hh hfh hs] at hr
              exact absurd hr (by simp)
          | some vs =>
            cases hfs : pyInt vs with
            | error e =>
                rw [parseReading_bad_ts data vt vh vs qt qh e ht hft hh hfh hs hfs] at hr
                exact absurd hr (by simp)
            | ok ts =>
                have : parseReading data =
                    .ok ⟨data.device_id.getD (JVal.s "unknown-device"), qt, qh, ts⟩ := by
                  simp [parseReading, getItem, bind, Except.bind, Functor.map, Except.map, pure, Except.pure, ht, hft, hh, hfh, hs, hfs]
                rw [this] at hr
                injection hr with hr
                subst hr
                exact ⟨rfl, ⟨vt, rfl, hft⟩, ⟨vh, rfl, hfh⟩, ⟨vs, rfl, hfs⟩⟩

theorem bcount_le_one (r : ReqState) : bcount r ≤ 1 := by
  cases r <;> simp [bcount]

theorem bcount_eq_one (r : ReqState) (h : bcount r = 1) :
    (∃ n, r = .broadcasted n) ∨ ∃ n, r = .done n := by
  cases r <;> simp_all [bcount]

theorem nodeAccepts_true (mined : ℕ) (pending : List ℕ) (n : ℕ)
    (h : nodeAccepts mined pending n = true) : mined ≤ n ∧ n ∉ pending := by
  simp [nodeAccepts] at h
  exact h

theorem nodeAccepts_false (mined : ℕ) (pending : List ℕ) (n : ℕ)
    (h : nodeAccepts mined pending n = false) : n < mined ∨ n ∈ pending := by
  simp [nodeAccepts] at h
  by_cases hle : mined ≤ n
  · exact Or.inr (h hle)
  · exact Or.inl (Nat.lt_of_not_le hle)

theorem raceInv_init (m0 : ℕ) : RaceInv m0 (initSt m0) := by
  refine ⟨Nat.le_refl m0, Or.inl rfl, by simp [initSt, bcount], ?_, ?_, ?_, ?_, ?_, ?_, ?_, ?_, ?_⟩ <;>
    intro n hn <;> simp [initSt] at hn ⊢
  · intro n₂ h1 h2
    simp [inflight, initSt] at h1

theorem bcount_start : bcount .start = 0 := rfl

theorem bcount_gotNonce (n : ℕ) : bcount (.gotNonce n) = 0 := rfl

theorem bcount_broadcasted (n : ℕ) : bcount (.broadcasted n) = 1 := rfl

theorem bcount_done (n : ℕ) : bcount (.done n) = 1 := rfl

theorem bcount_failed (n : ℕ) : bcount (.failed n) = 0 := rfl

theorem raceInv_step (m0 : ℕ) (s s' : RelaySt) (inv : RaceInv m0 s)
    (st : RaceStep s s') : RaceInv m0 s' := by
  obtain ⟨mge, pend, cnt, got1, got2, bd1, bd2, done1, done2, fail1, fail2, dst⟩ := inv
  cases st with
  | read1 h =>
      refine ⟨mge, pend, ?_, ?_, got2, ?_, bd2, ?_, done2, ?_, ?_, ?_⟩
      · rw [h, bcount_start] at cnt
        simpa [bcount_gotNonce] using cnt
      · intro n hn
        injection hn with hn
        subst hn
        exact ⟨mge, Nat.le_refl _⟩
      · intro n hn; simp at hn
      · intro n hn; simp at hn
      · intro n hn; simp at hn
      · intro n hn
        have h2 := fail2 n hn
        rw [h, bcount_start] at h2
        simp at h2
      · intro n₁ n₂ h1 h2
        rcases h1 with h1 | h1 <;> simp at h1
  | read2 h =>
      refine ⟨mge, pend, ?_, got1, ?_, bd1, ?_, done1, ?_, ?_, ?_, ?_⟩
      · rw [h, bcount_start] at cnt
        simpa [bcount_gotNonce] using cnt
      · intro n hn
        injection hn with hn
        subst hn
        exact ⟨mge, Nat.le_refl _⟩
      · intro n hn; simp at hn
      · intro n hn; simp at hn
      · intro n hn
        have h1 := fail1 n hn
        rw [h, bcount_start] at h1
        simp at h1
      · intro n hn; simp at hn
      · intro n₁ n₂ h1 h2
        rcases h2 with h2 | h2 <;> simp at h2
  | sendOk1 n h hacc =>
      obtain ⟨hmle, hnotmem⟩ := nodeAccepts_true _ _ _ hacc
      obtain ⟨hm0, hle⟩ := got1 n h
      have hnm : n = s.mined := Nat.le_antisymm hle hmle
      have hpe : s.pending = [] := by
        rcases pend with hp | hp
        · exact hp
        · exfalso; rw [hp, hnm] at hnotmem; simp at hnotmem
      refine ⟨mge, ?_, ?_, ?_, got2, ?_, ?_, ?_, done2, ?_, ?_, ?_⟩
      · right; simp [hpe, hnm]
      · rw [h, bcount_gotNonce] at cnt
        rw [hpe] at cnt ⊢
        simp only [bcount_broadcasted, List.nil_append, List.length_singleton,
          List.length_nil] at cnt ⊢
        omega
      · intro m hm; simp at hm
      · intro m hm
        injection hm with hm
        subst hm
        exact ⟨hm0, Or.inr ⟨hnm, by simp [hpe, hnm]⟩⟩
      · intro m hm
        obtain ⟨hm0m, hcase⟩ := bd2 m hm
        refine ⟨hm0m, ?_⟩
        rcases hcase with hc | ⟨hc, hcp⟩
        · exact Or.inl hc
        · rw [hpe] at hcp; simp at hcp
      · intro m hm; simp at hm
      · intro m hm; simp at hm
      · intro m hm; rfl
      · intro n₁ n₂ h1 h2
        have hn1 : n₁ = n := by
          rcases h1 with h1 | h1
          · injection h1 with hx; exact hx.symm
          · simp at h1
        subst hn1
        rcases h2 with h2 | h2
        · obtain ⟨_, hcase⟩ := bd2 n₂ h2
          rcases hcase with hc | ⟨hc, hcp⟩
          · omega
          · rw [hpe] at hcp; simp at hcp
        · obtain ⟨_, hlt⟩ := done2 n₂ h2
          omega
  | sendOk2 n h hacc =>
      obtain ⟨hmle, hnotmem⟩ := nodeAccepts_true _ _ _ hacc
      obtain ⟨hm0, hle⟩ := got2 n h
      have hnm : n = s.mined := Nat.le_antisymm hle hmle
      have hpe : s.pending = [] := by
        rcases pend with hp | hp
        · exact hp
        · exfalso; rw [hp, hnm] at hnotmem; simp at hnotmem
      refine ⟨mge, ?_, ?_, got1, ?_, ?_, ?_, done1, ?_, ?_, ?_, ?_⟩
      · right; simp [hpe, hnm]
      · rw [h, bcount_gotNonce] at cnt
        rw [hpe] at cnt ⊢
        simp only [bcount_broadcasted, List.nil_append, List.length_singleton,
          List.length_nil] at cnt ⊢
        omega
      · intro m hm; simp at hm
      · intro m hm
        obtain ⟨hm0m, hcase⟩ := bd1 m hm
        refine ⟨hm0m, ?_⟩
        rcases hcase with hc | ⟨hc, hcp⟩
        · exact Or.inl hc
        · rw [hpe] at hcp; simp at hcp
      · intro m hm
        injection hm with hm
        subst hm
        exact ⟨hm0, Or.inr ⟨hnm, by simp [hpe, hnm]⟩⟩
      · intro m hm; simp at hm
      · intro m hm
        have h1 := fail1 m hm
        rw [h, bcount_gotNonce] at h1
        simp at h1
      · intro m hm; simp at hm
      · intro n₁ n₂ h1 h2
        have hn2 : n₂ = n := by
          rcases h2 with h2 | h2
          · injection h2 with hx; exact hx.symm
          · simp at h2
        subst hn2
        rcases h1 with h1 | h1
        · obtain ⟨_, hcase⟩ := bd1 n₁ h1
          rcases hcase with hc | ⟨hc, hcp⟩
          · omega
          · rw [hpe] at hcp; simp at hcp
        · obtain ⟨_, hlt⟩ := done1 n₁ h1
          omega
  | sendFail1 n h hacc =>
      have hrej := nodeAccepts_false _ _ _ hacc
      obtain ⟨hm0, hle⟩ := got1 n h
      refine ⟨mge, pend, ?_, ?_, got2, ?_, bd2, ?_, done2, ?_, ?_, ?_⟩
      · rw [h, bcount_gotNonce] at cnt
        simpa [bcount_failed] using cnt
      · intro m hm; simp at hm
      · intro m hm; simp at hm
      · intro m hm; simp at hm
      · intro m hm
        rw [h, bcount_gotNonce] at cnt
        have hb2 : 1 ≤ bcount s.r2 := by
          rcases hrej with hlt | hmem
          · omega
          · have hne : s.pending ≠ [] := by
              intro he; rw [he] at hmem; simp at hmem
            have hlen : 1 ≤ s.pending.length := by
              cases hp : s.pending with
              | nil => exact absurd hp hne
              | cons a l => simp
            omega
        have hup := bcount_le_one s.r2
        show bcount s.r2 = 1
        omega
      · intro m hm
        have h2 := fail2 m hm
        rw [h, bcount_gotNonce] at h2
        simp at h2
      · intro n₁ n₂ h1 h2
        rcases h1 with h1 | h1 <;> simp at h1
  | sendFail2 n h hacc =>
      have hrej := nodeAccepts_false _ _ _ hacc
      obtain ⟨hm0, hle⟩ := got2 n h
      refine ⟨mge, pend, ?_, got1, ?_, bd1, ?_, done1, ?_, ?_, ?_, ?_⟩
      · rw [h, bcount_gotNonce] at cnt
        simpa [bcount_failed] using cnt
      · intro m hm; simp at hm
      · intro m hm; simp at hm
      · intro m hm; simp at hm
      · intro m hm
        have h1 := fail1 m hm
        rw [h, bcount_gotNonce] at h1
        simp at h1
      · intro m hm
        rw [h, bcount_gotNonce] at cnt
        have hb1 : 1 ≤ bcount s.r1 := by
          rcases hrej with hlt | hmem
          · omega
          · have hne : s.pending ≠ [] := by
              intro he; rw [he] at hmem; simp at hmem
            have hlen : 1 ≤ s.pending.length := by
              cases hp : s.pending with
              | nil => exact absurd hp hne
              | cons a l => simp
            omega
        have hup := bcount_le_one s.r1
        show bcount s.r1 = 1
        omega
      · intro n₁ n₂ h1 h2
        rcases h2 with h2 | h2 <;> simp at h2
  | mine rest h =>
      have hrest : rest = [] := by
        rcases pend with hp | hp
        · rw [hp] at h; simp at h
        · rw [hp] at h
          injection h with h1 h2
          exact h2.symm
      refine ⟨Nat.le_succ_of_le mge, Or.inl hrest, ?_, ?_, ?_, ?_, ?_, ?_, ?_, fail1, fail2, dst⟩
      · rw [h] at cnt
        simp only [List.length_cons, hrest, List.length_nil] at cnt ⊢
        show s.mined + 1 - m0 + 0 = bcount s.r1 + bcount s.r2
        omega
      · intro m hm
        obtain ⟨ha, hb⟩ := got1 m hm
        exact ⟨ha, Nat.le_succ_of_le hb⟩
      · intro m hm
        obtain ⟨ha, hb⟩ := got2 m hm
        exact ⟨ha, Nat.le_succ_of_le hb⟩
      · intro m hm
        obtain ⟨ha, hb⟩ := bd1 m hm
        refine ⟨ha, Or.inl (show m < s.mined + 1 by rcases hb with hb | ⟨hb, _⟩ <;> omega)⟩
      · intro m hm
        obtain ⟨ha, hb⟩ := bd2 m hm
        refine ⟨ha, Or.inl (show m < s.mined + 1 by rcases hb with hb | ⟨hb, _⟩ <;> omega)⟩
      · intro m hm
        obtain ⟨ha, hb⟩ := done1 m hm
        exact ⟨ha, Nat.lt_succ_of_lt hb⟩
      · intro m hm
        obtain ⟨ha, hb⟩ := done2 m hm
        exact ⟨ha, Nat.lt_succ_of_lt hb⟩
  | receipt1 n h hm =>
      refine ⟨mge, pend, ?_, ?_, got2, ?_, bd2, ?_, done2, ?_, ?_, ?_⟩
      · rw [h, bcount_broadcasted] at cnt
        simpa [bcount_done] using cnt
      · intro m hmm; simp at hmm
      · intro m hmm; simp at hmm
      · intro m hmm
        injection hmm with hmm
        subst hmm
        exact ⟨(bd1 _ h).1, hm⟩
      · intro m hmm; simp at hmm
      · intro m hmm; rfl
      · intro n₁ n₂ h1 h2
        have hn1 : n₁ = n := by
          rcases h1 with h1 | h1
          · simp at h1
          · injection h1 with hx; exact hx.symm
        subst hn1
        exact dst _ n₂ (Or.inl h) h2
  | receipt2 n h hm =>
      refine ⟨mge, pend, ?_, got1, ?_, bd1, ?_, done1, ?_, ?_, ?_, ?_⟩
      · rw [h, bcount_broadcasted] at cnt
        simpa [bcount_done] using cnt
      · intro m hmm; simp at hmm
      · intro m hmm; simp at hmm
      · intro m hmm
        injection hmm with hmm
        subst hmm
        exact ⟨(bd2 _ h).1, hm⟩
      · intro m hmm; rfl
      · intro m hmm; simp at hmm
      · intro n₁ n₂ h1 h2
        have hn2 : n₂ = n := by
          rcases h2 with h2 | h2
          · simp at h2
          · injection h2 with hx; exact hx.symm
        subst hn2
        exact dst n₁ _ h1 (Or.inl h)

theorem raceInv_reach (m0 : ℕ) (s : RelaySt) (h : Reach m0 s) : RaceInv m0 s := by
  induction h with
  | refl => exact raceInv_init m0
  | tail _ hbc ih => exact raceInv_step m0 _ _ ih hbc

/-!
The claims.  Each claim has exactly one theorem; theorems with
hypotheses are followed by a witness instantiating them at concrete
inputs.
-/

/-- Claim C1: for the valid input `device_id "esp32-1", temperature 25.3,
humidity 70.1, timestamp_ms 1731000000000`, with the archive upload
returning a CID and the node delivering a receipt, the handler returns
`status "ok"` with the transaction hash, block number and CID, and the
`storeReading` transaction it broadcasts carries exactly the scaled
arguments `temp_scaled = 253` and `humidity_scaled = 701`. -/
theorem relay_end_to_end_ok (env : Env) (c : String) (b : ℕ)
    (hjwt : env.pinataJwt ≠ "")
    (hpin : env.pinata = .okBody (some c))
    (hwait : wait_for_transaction_receipt env.receiptAt wait_fuel = .ok b) :
    recibir_lectura env data1 =
      (.ok { status := "ok", tx_hash := env.txHash, block := b, cid := c },
       [Effect.pinataPost { device_id := .s "esp32-1",
                            temperature_c := 253 / 10,
                            humidity_percent := 701 / 10,
                            timestamp_ms := 1731000000000 },
        Effect.getTransactionCount, Effect.getGasPrice,
        Effect.sendRawTransaction { deviceId := .s "esp32-1",
                                    temperatureTimes10 := 253,
                                    humidityTimes10 := 701,
                                    timestampMs := 1731000000000,
                                    cid := c,
                                    nonce := env.txCount,
                                    gas := 300000,
                                    gasPrice := env.gasPrice,
                                    chainId := env.chainId },
        Effect.waitForReceipt env.txHash]) := by
  have hr : parseReading data1 = .ok reading1 := by rfl
  have hsub := subir_ok env (pinataPayloadOf reading1) c hjwt hpin
  have hcid : cidOf env reading1 = c := by
    simp [cidOf, hsub]
  have hcid2 : cidOf env { device_id := JVal.s "esp32-1", temp_c := 253 / 10,
                           hum := 701 / 10, timestamp_ms := 1731000000000 } = c := hcid
  rw [Prod.ext_iff]
  constructor
  · rw [recibir_ok_result env data1 reading1 b hr hwait, hcid]
  · rw [recibir_trace env data1 reading1 hr, hsub]
    simp [ledgerTrace, buildTx, pinataPayloadOf, reading1, hcid2, scale_253, scale_701]

/-- Witness for C1 at the concrete environment `envW`. -/
theorem relay_end_to_end_ok_witness :
    recibir_lectura envW data1 =
      (.ok { status := "ok", tx_hash := "0xabc", block := 123, cid := "QmTest" },
       [Effect.pinataPost { device_id := .s "esp32-1",
                            temperature_c := 253 / 10,
                            humidity_percent := 701 / 10,
                            timestamp_ms := 1731000000000 },
        Effect.getTransactionCount, Effect.getGasPrice,
        Effect.sendRawTransaction { deviceId := .s "esp32-1",
                                    temperatureTimes10 := 253,
                                    humidityTimes10 := 701,
                                    timestampMs := 1731000000000,
                                    cid := "QmTest",
                                    nonce := 5,
                                    gas := 300000,
                                    gasPrice := 7,
                                    chainId := 11155111 },
        Effect.waitForReceipt "0xabc"]) :=
  relay_end_to_end_ok envW "QmTest" 123 (by decide) rfl rfl

/-- Claim C2: the scaling used by the handler is `int(round(x * 10))`,
applied to both temperature and humidity of every built transaction; as a
Lean function it is deterministic by construction, and the pinned rounding
rule is round-half-to-even (the rule of Python 3 `round`):
`scale 25.3 = 253`, `scale (-12.34) = -123`, and the tie `scale 25.25`
resolves to the single value 252. -/
theorem scaling_deterministic :
    (∀ x : ℚ, scale x = pyRound (x * 10)) ∧
    (∀ env r cid, (buildTx env r cid).temperatureTimes10 = scale r.temp_c ∧
       (buildTx env r cid).humidityTimes10 = scale r.hum) ∧
    scale (253 / 10) = 253 ∧ scale (-1234 / 100) = -123 ∧ scale (2525 / 100) = 252 := by
  refine ⟨?_, ?_, scale_253, ?_, ?_⟩
  · intro x; rw [scale, mul10_eq]
  · intro env r cid; exact ⟨rfl, rfl⟩
  · rw [lit_neg_1234_100]; decide
  · rw [lit_2525_100]; decide

/-- Claim C3: whenever the archive step yields no CID, the cid used
downstream is the empty string, embedded in the transaction that is still
built and broadcast, and the whole archive interaction precedes nonce
acquisition, gas query and broadcast in the effect trace. -/
theorem archive_none_still_broadcasts (env : Env) (data : RawPayload) (r : Reading)
    (hr : parseReading data = .ok r)
    (hnone : (subir_a_pinata env (pinataPayloadOf r)).1 = none) :
    cidOf env r = "" ∧
    (recibir_lectura env data).2 =
      (subir_a_pinata env (pinataPayloadOf r)).2 ++
        [Effect.getTransactionCount, Effect.getGasPrice,
         Effect.sendRawTransaction (buildTx env r ""), Effect.waitForReceipt env.txHash] := by
  have hcid : cidOf env r = "" := by simp [cidOf, hnone]
  refine ⟨hcid, ?_⟩
  rw [recibir_trace env data r hr]
  simp [ledgerTrace, hcid]

/-- Witness for C3: unreachable Pinata, valid reading. -/
theorem archive_none_still_broadcasts_witness :
    cidOf envFail reading1 = "" ∧
    (recibir_lectura envFail data1).2 =
      (subir_a_pinata envFail (pinataPayloadOf reading1)).2 ++
        [Effect.getTransactionCount, Effect.getGasPrice,
         Effect.sendRawTransaction (buildTx envFail reading1 ""),
         Effect.waitForReceipt envFail.txHash] :=
  archive_none_still_broadcasts envFail data1 reading1 rfl rfl

/-- Claim C4: the archive operation never raises: it is a total function
into `Option String`, returning `none` on a transport error, an HTTP
error status or a malformed response body (including a body with no
`IpfsHash`), and returning the service CID on success. -/
theorem subir_a_pinata_never_raises (env : Env) (payload : PinataPayload) :
    (archiveFailed env.pinata → (subir_a_pinata env payload).1 = none) ∧
    (∀ c, env.pinataJwt ≠ "" → env.pinata = .okBody (some c) →
      (subir_a_pinata env payload).1 = some c) := by
  constructor
  · intro h; exact subir_none_of_failed env payload h
  · intro c hj h; rw [subir_ok env payload c hj h]

/-- Witness for C4: a transport error yields none, a good body yields the
CID. -/
theorem subir_a_pinata_never_raises_witness :
    (subir_a_pinata envFail (pinataPayloadOf reading1)).1 = none ∧
    (subir_a_pinata envW (pinataPayloadOf reading1)).1 = some "QmTest" :=
  ⟨(subir_a_pinata_never_raises envFail (pinataPayloadOf reading1)).1 (Or.inl rfl),
   (subir_a_pinata_never_raises envW (pinataPayloadOf reading1)).2 "QmTest" (by decide) rfl⟩

/-- Claim C5: with no Pinata token configured the archive call is skipped
entirely: the archive step performs zero outbound requests and returns
none, and the pipeline proceeds with the empty CID (the effect trace is
exactly the ledger effects, with no Pinata post). -/
theorem missing_jwt_skips_archive (env : Env) (payload : PinataPayload)
    (data : RawPayload) (r : Reading)
    (hjwt : env.pinataJwt = "") (hr : parseReading data = .ok r) :
    subir_a_pinata env payload = (none, []) ∧
    cidOf env r = "" ∧
    (recibir_lectura env data).2 =
      [Effect.getTransactionCount, Effect.getGasPrice,
       Effect.sendRawTransaction (buildTx env r ""), Effect.waitForReceipt env.txHash] := by
  have hskip2 := subir_skip env (pinataPayloadOf r) hjwt
  have hcid : cidOf env r = "" := by simp [cidOf, hskip2]
  refine ⟨subir_skip env payload hjwt, hcid, ?_⟩
  rw [recibir_trace env data r hr, hskip2]
  simp [ledgerTrace, hcid]

/-- Witness for C5 at `env0`, whose token is the empty string. -/
theorem missing_jwt_skips_archive_witness :
    subir_a_pinata env0 (pinataPayloadOf reading1) = (none, []) ∧
    cidOf env0 reading1 = "" ∧
    (recibir_lectura env0 data1).2 =
      [Effect.getTransactionCount, Effect.getGasPrice,
       Effect.sendRawTransaction (buildTx env0 reading1 ""),
       Effect.waitForReceipt env0.txHash] :=
  missing_jwt_skips_archive env0 (pinataPayloadOf reading1) data1 reading1 rfl rfl

/-- Claim C6: every request queries the chain transaction count (the
effect appears in every trace, so no cached nonce is ever used), and the
broadcast transaction carries exactly that count as nonce, the network
gas price, the fixed gas limit 300000 and the configured chain id. -/
theorem ledger_tx_parameters (env : Env) (data : RawPayload) (r : Reading)
    (hr : parseReading data = .ok r) :
    Effect.getTransactionCount ∈ (recibir_lectura env data).2 ∧
    Effect.sendRawTransaction (buildTx env r (cidOf env r)) ∈ (recibir_lectura env data).2 ∧
    (buildTx env r (cidOf env r)).nonce = env.txCount ∧
    (buildTx env r (cidOf env r)).gasPrice = env.gasPrice ∧
    (buildTx env r (cidOf env r)).gas = 300000 ∧
    (buildTx env r (cidOf env r)).chainId = env.chainId := by
  rw [recibir_trace env data r hr]
  refine ⟨?_, ?_, rfl, rfl, rfl, rfl⟩ <;> simp [ledgerTrace]

/-- Witness for C6 at `envW` and `data1`. -/
theorem ledger_tx_parameters_witness :
    Effect.getTransactionCount ∈ (recibir_lectura envW data1).2 ∧
    Effect.sendRawTransaction (buildTx envW reading1 (cidOf envW reading1)) ∈
      (recibir_lectura envW data1).2 ∧
    (buildTx envW reading1 (cidOf envW reading1)).nonce = envW.txCount ∧
    (buildTx envW reading1 (cidOf envW reading1)).gasPrice = envW.gasPrice ∧
    (buildTx envW reading1 (cidOf envW reading1)).gas = 300000 ∧
    (buildTx envW reading1 (cidOf envW reading1)).chainId = envW.chainId :=
  ledger_tx_parameters envW data1 reading1 rfl

/-- Counterexample for C7 as stated: at `data0` the `temperature` value is
present but not coercible (JSON `null`), the handler does fail before any
outbound call, but the raised error is the `TypeError` of `float(None)`,
which carries the Python type name and names no field at all. -/
theorem validation_naming_counterexample :
    recibir_lectura env0 data0 = (.error (.typeError "NoneType"), []) ∧
    errorField (.typeError "NoneType") = none :=
  ⟨rfl, rfl⟩

theorem pyFloat_error_shape (v : JVal) (e : RelayError) (h : pyFloat v = .error e) :
    ((∃ s, e = .valueError s) ∨ ∃ t, e = .typeError t) ∧ errorField e = none := by
  cases v with
  | s w =>
      cases hp : pyParseFloat w with
      | some q => rw [pyFloat, hp] at h; simp at h
      | none =>
          rw [pyFloat, hp] at h
          injection h with h
          subst h
          exact ⟨Or.inl ⟨w, rfl⟩, rfl⟩
  | num q => simp [pyFloat] at h
  | bool b => simp [pyFloat] at h
  | null =>
      injection h with h
      subst h
      exact ⟨Or.inr ⟨"NoneType", rfl⟩, rfl⟩

theorem pyInt_error_shape (v : JVal) (e : RelayError) (h : pyInt v = .error e) :
    ((∃ s, e = .valueError s) ∨ ∃ t, e = .typeError t) ∧ errorField e = none := by
  cases v with
  | s w =>
      cases hp : pyParseInt w with
      | some n => rw [pyInt, hp] at h; simp at h
      | none =>
          rw [pyInt, hp] at h
          injection h with h
          subst h
          exact ⟨Or.inl ⟨w, rfl⟩, rfl⟩
  | num q => simp [pyInt] at h
  | bool b => simp [pyInt] at h
  | null =>
      injection h with h
      subst h
      exact ⟨Or.inr ⟨"NoneType", rfl⟩, rfl⟩

/-- Claim C7 as amended: a payload missing `temperature`, `humidity` or
`timestamp_ms`, or carrying a non-coercible value for one of them, makes
the handler fail with an empty effect trace (zero outbound calls, no side
effects); when the first failing field is missing the error is the
`KeyError` naming that field, and when the first failing field is present
but non-coercible the error is exactly the propagated coercion error, a
`ValueError` or `TypeError` identifying the offending value or type,
which names no field. -/
theorem validation_fails_before_network (env : Env) (data : RawPayload)
    (hbad : data.temperature = none ∨
      (∃ v e, data.temperature = some v ∧ pyFloat v = .error e) ∨
      data.humidity = none ∨
      (∃ v e, data.humidity = some v ∧ pyFloat v = .error e) ∨
      data.timestamp_ms = none ∨
      (∃ v e, data.timestamp_ms = some v ∧ pyInt v = .error e)) :
    ∃ e, recibir_lectura env data = (.error e, []) ∧
      (data.temperature = none → e = .keyError "temperature") ∧
      (∀ v q, data.temperature = some v → pyFloat v = .ok q →
        data.humidity = none → e = .keyError "humidity") ∧
      (∀ v q w p, data.temperature = some v → pyFloat v = .ok q →
        data.humidity = some w → pyFloat w = .ok p →
        data.timestamp_ms = none → e = .keyError "timestamp_ms") ∧
      (∀ v f, data.temperature = some v → pyFloat v = .error f →
        e = f ∧ ((∃ s, e = .valueError s) ∨ ∃ t, e = .typeError t) ∧ errorField e = none) ∧
      (∀ v q w f, data.temperature = some v → pyFloat v = .ok q →
        data.humidity = some w → pyFloat w = .error f →
        e = f ∧ ((∃ s, e = .valueError s) ∨ ∃ t, e = .typeError t) ∧ errorField e = none) ∧
      (∀ v q w p u f, data.temperature = some v → pyFloat v = .ok q →
        data.humidity = some w → pyFloat w = .ok p →
        data.timestamp_ms = some u → pyInt u = .error f →
        e = f ∧ ((∃ s, e = .valueError s) ∨ ∃ t, e = .typeError t) ∧ errorField e = none) := by
  cases ht : data.temperature with
  | none =>
      refine ⟨.keyError "temperature",
        recibir_invalid env data _ (parseReading_missing_temp data ht), fun _ => rfl,
        ?_, ?_, ?_, ?_, ?_⟩
      · intro v q hv; simp at hv
      · intro v q w p hv; simp at hv
      · intro v f hv; simp at hv
      · intro v q w f hv; simp at hv
      · intro v q w p u f hv; simp at hv
  | some vt =>
    cases hft : pyFloat vt with
    | error e =>
        refine ⟨e, recibir_invalid env data _ (parseReading_bad_temp data vt e ht hft),
          ?_, ?_, ?_, ?_, ?_, ?_⟩
        · intro hv; simp at hv
        · intro v q hv hq _
          injection hv with hv
          subst hv
          rw [hft] at hq
          simp at hq
        · intro v q w p hv hq
          injection hv with hv
          subst hv
          rw [hft] at hq
          simp at hq
        · intro v f hv hq
          injection hv with hv
          subst hv
          rw [hft] at hq
          injection hq with hq
          exact ⟨hq, (pyFloat_error_shape vt e hft).1, (pyFloat_error_shape vt e hft).2⟩
        · intro v q w f hv hq
          injection hv with hv
          subst hv
          rw [hft] at hq
          simp at hq
        · intro v q w p u f hv hq
          injection hv with hv
          subst hv
          rw [hft] at hq
          simp at hq
    | ok qt =>
      cases hh : data.humidity with
      | none =>
          refine ⟨.keyError "humidity",
            recibir_invalid env data _ (parseReading_missing_hum data vt qt ht hft hh),
            ?_, fun _ _ _ _ _ => rfl, ?_, ?_, ?_, ?_⟩
          · intro hv; simp at hv
          · intro v q w p _ _ hw; simp at hw
          · intro v f hv hq
            injection hv with hv
            subst hv
            rw [hft] at hq
            simp at hq
          · intro v q w f hv hq hw; simp at hw
          · intro v q w p u f hv hq hw; simp at hw
      | some vh =>
        cases hfh : pyFloat vh with
        | error e =>
            refine ⟨e,
              recibir_invalid env data _ (parseReading_bad_hum data vt vh qt e ht hft hh hfh),
              ?_, ?_, ?_, ?_, ?_, ?_⟩
            · intro hv; simp at hv
            · intro v q hv hq hw; simp at hw
            · intro v q w p hv hq hw hp
              injection hw with hw
              subst hw
              rw [hfh] at hp
              simp at hp
            · intro v f hv hq
              injection hv with hv
              subst hv
              rw [hft] at hq
              simp at hq
            · intro v q w f hv hq hw hp
              injection hw with hw
              subst hw
              rw [hfh] at hp
              injection hp with hp
              exact ⟨hp, (pyFloat_error_shape vh e hfh).1, (pyFloat_error_shape vh e hfh).2⟩
            · intro v q w p u f hv hq hw hp
              injection hw with hw
              subst hw
              rw [hfh] at hp
              simp at hp
        | ok qh =>
          cases hs : data.timestamp_ms with
          | none =>
              refine ⟨.keyError "timestamp_ms",
                recibir_invalid env data _
                  (parseReading_missing_ts data vt vh qt qh ht hft hh hfh hs),
                ?_, ?_, fun _ _ _ _ _ _ _ _ _ => rfl, ?_, ?_, ?_⟩
              · intro hv; simp at hv
              · intro v q hv hq hw; simp at hw
              · intro v f hv hq
                injection hv with hv
                subst hv
                rw [hft] at hq
                simp at hq
              · intro v q w f hv hq hw hp
                injection hw with hw
                subst hw
                rw [hfh] at hp
                simp at hp
              · intro v q w p u f hv hq hw hp hu; simp at hu
          | some vs =>
            cases hfs : pyInt vs with
            | error e =>
                refine ⟨e,
                  recibir_invalid env data _
                    (parseReading_bad_ts data vt vh vs qt qh e ht hft hh hfh hs hfs),
                  ?_, ?_, ?_, ?_, ?_, ?_⟩
                · intro hv; simp at hv
                · intro v q hv hq hw; simp at hw
                · intro v q w p hv hq hw hp hts; simp at hts
                · intro v f hv hq
                  injection hv with hv
                  subst hv
                  rw [hft] at hq
                  simp at hq
                · intro v q w f hv hq hw hp
                  injection hw with hw
                  subst hw
                  rw [hfh] at hp
                  simp at hp
                · intro v q w p u f hv hq hw hp hu hf
                  injection hu with hu
                  subst hu
                  rw [hfs] at hf
                  injection hf with hf
                  exact ⟨hf, (pyInt_error_shape vs e hfs).1, (pyInt_error_shape vs e hfs).2⟩
            | ok ts =>
                exfalso
                rcases hbad with hb | ⟨v, e, hb, he⟩ | hb | ⟨v, e, hb, he⟩ | hb | ⟨v, e, hb, he⟩
                · rw [ht] at hb; simp at hb
                · rw [ht] at hb
                  injection hb with hb
                  subst hb
                  rw [hft] at he
                  simp at he
                · rw [hh] at hb; simp at hb
                · rw [hh] at hb
                  injection hb with hb
                  subst hb
                  rw [hfh] at he
                  simp at he
                · rw [hs] at hb; simp at hb
                · rw [hs] at hb
                  injection hb with hb
                  subst hb
                  rw [hfs] at he
                  simp at he

/-- Witness for the amended C7, exercising both halves: a payload missing
`temperature` fails with the `KeyError` naming the field, and a payload
whose `temperature` is present but non-coercible (`null`) fails with the
propagated `TypeError`, which names no field; both with an empty trace. -/
theorem validation_fails_before_network_witness :
    recibir_lectura env0 dataNoTemp = (.error (.keyError "temperature"), []) ∧
    recibir_lectura env0 data0 = (.error (.typeError "NoneType"), []) ∧
    errorField (RelayError.typeError "NoneType") = none := by
  refine ⟨?_, ?_, rfl⟩
  · obtain ⟨e, he, hname, _, _, _, _, _⟩ :=
      validation_fails_before_network env0 dataNoTemp (Or.inl rfl)
    rw [hname rfl] at he
    exact he
  · obtain ⟨e, he, _, _, _, hbadT, _, _⟩ :=
      validation_fails_before_network env0 data0
        (Or.inr (Or.inl ⟨.null, .typeError "NoneType", rfl, rfl⟩))
    rw [(hbadT .null (.typeError "NoneType") rfl rfl).1] at he
    exact he

/-- Claim C8: confirmation is a bounded poll: when the node reports no
receipt at any of the `wait_fuel` polls (120 s at the 0.1 s default poll
latency of the library), the handler terminates with the `TimeExhausted`
timeout error instead of hanging (the wait is a total function of the
poll bound); when a receipt arrives within the bound, the handler returns
it as the response block. -/
theorem confirmation_bounded (env : Env) (data : RawPayload) (r : Reading)
    (hr : parseReading data = .ok r) :
    ((∀ k, env.receiptAt k = none) →
      (recibir_lectura env data).1 = .error .timeExhausted) ∧
    (∀ b, wait_for_transaction_receipt env.receiptAt wait_fuel = .ok b →
      (recibir_lectura env data).1 =
        .ok { status := "ok", tx_hash := env.txHash, block := b, cid := cidOf env r }) := by
  constructor
  · intro hnone
    have hfind : (List.range wait_fuel).findSome? env.receiptAt = none := by
      rw [List.findSome?_eq_none_iff]
      intro x _
      exact hnone x
    have hw : wait_for_transaction_receipt env.receiptAt wait_fuel =
        .error .timeExhausted := by
      rw [wait_for_transaction_receipt, hfind]
    exact recibir_err_result env data r _ hr hw
  · intro b hw
    exact recibir_ok_result env data r b hr hw

/-- Witness for C8: a node that never mines yields the timeout error; a
node that reports a receipt at the first poll yields the block. -/
theorem confirmation_bounded_witness :
    (recibir_lectura env0 data1).1 = .error .timeExhausted ∧
    (recibir_lectura envW data1).1 =
      .ok { status := "ok", tx_hash := envW.txHash, block := 123,
            cid := cidOf envW reading1 } :=
  ⟨(confirmation_bounded env0 data1 reading1 rfl).1 (fun _ => rfl),
   (confirmation_bounded envW data1 reading1 rfl).2 123 rfl⟩

/-- Claim C9: in the interleaving model of two concurrent submissions for
the same account, every completed execution ends with the two requests
either both succeeding with distinct, consecutive nonces from the initial
count, or exactly one succeeding and the other rejected by the node with
a nonce conflict; two successes never share a nonce and each request
always reaches a reported outcome. -/
theorem concurrent_submit_outcomes (m0 : ℕ) (s : RelaySt)
    (hreach : Reach m0 s) (h1 : finishedReq s.r1) (h2 : finishedReq s.r2) :
    (∃ n₁ n₂, s.r1 = .done n₁ ∧ s.r2 = .done n₂ ∧ n₁ ≠ n₂ ∧
       ((n₁ = m0 ∧ n₂ = m0 + 1) ∨ (n₂ = m0 ∧ n₁ = m0 + 1))) ∨
    (∃ n₁ n₂, s.r1 = .done n₁ ∧ s.r2 = .failed n₂) ∨
    (∃ n₁ n₂, s.r1 = .failed n₁ ∧ s.r2 = .done n₂) := by
  have inv := raceInv_reach m0 s hreach
  rcases h1 with ⟨n₁, hd1⟩ | ⟨n₁, hf1⟩
  · rcases h2 with ⟨n₂, hd2⟩ | ⟨n₂, hf2⟩
    · left
      refine ⟨n₁, n₂, hd1, hd2, inv.distinct n₁ n₂ (Or.inr hd1) (Or.inr hd2), ?_⟩
      obtain ⟨ha1, hb1⟩ := inv.done1 n₁ hd1
      obtain ⟨ha2, hb2⟩ := inv.done2 n₂ hd2
      have hne := inv.distinct n₁ n₂ (Or.inr hd1) (Or.inr hd2)
      have hm := inv.mined_ge
      have hcnt := inv.count
      rw [hd1, hd2, bcount_done, bcount_done] at hcnt
      have hpl : s.pending.length ≤ 1 := by
        rcases inv.pend with hp | hp <;> simp [hp]
      omega
    · exact Or.inr (Or.inl ⟨n₁, n₂, hd1, hf2⟩)
  · rcases h2 with ⟨n₂, hd2⟩ | ⟨n₂, hf2⟩
    · exact Or.inr (Or.inr ⟨n₁, n₂, hf1, hd2⟩)
    · exfalso
      have hb := inv.fail1 n₁ hf1
      rw [hf2, bcount_failed] at hb
      simp at hb

/-- Witness for C9: a concrete complete interleaving in which both
requests read nonce 0, the first broadcast is accepted and mined, and the
second broadcast is rejected as a nonce conflict. -/
theorem concurrent_submit_outcomes_witness :
    (∃ n₁ n₂, raceFinal.r1 = .done n₁ ∧ raceFinal.r2 = .done n₂ ∧ n₁ ≠ n₂ ∧
       ((n₁ = 0 ∧ n₂ = 0 + 1) ∨ (n₂ = 0 ∧ n₁ = 0 + 1))) ∨
    (∃ n₁ n₂, raceFinal.r1 = .done n₁ ∧ raceFinal.r2 = .failed n₂) ∨
    (∃ n₁ n₂, raceFinal.r1 = .failed n₁ ∧ raceFinal.r2 = .done n₂) := by
  refine concurrent_submit_outcomes 0 raceFinal ?_ ?_ ?_
  · exact .head (.read1 _ rfl)
      (.head (.read2 _ rfl)
        (.head (.sendOk1 _ 0 rfl (by decide))
          (.head (.sendFail2 _ 0 rfl (by decide))
            (.head (.mine _ [] rfl)
              (.head (.receipt1 _ 0 rfl (by decide)) .refl)))))
  · exact Or.inl ⟨0, rfl⟩
  · exact Or.inr ⟨0, rfl⟩

/-- Claim C10: when `device_id` is absent from the payload it defaults to
the string "unknown-device", which appears both as the `device_id` of the
archived JSON payload that is posted and as the `deviceId` argument of
the broadcast `storeReading` transaction. -/
theorem default_device_id (env : Env) (data : RawPayload) (r : Reading)
    (hdev : data.device_id = none) (hr : parseReading data = .ok r)
    (hjwt : env.pinataJwt ≠ "") :
    r.device_id = .s "unknown-device" ∧
    (pinataPayloadOf r).device_id = .s "unknown-device" ∧
    Effect.pinataPost (pinataPayloadOf r) ∈ (recibir_lectura env data).2 ∧
    (buildTx env r (cidOf env r)).deviceId = .s "unknown-device" ∧
    Effect.sendRawTransaction (buildTx env r (cidOf env r)) ∈ (recibir_lectura env data).2 := by
  have hid : r.device_id = .s "unknown-device" := by
    have h := (parseReading_ok_inv data r hr).1
    rw [hdev] at h
    simpa using h
  refine ⟨hid, by simp [pinataPayloadOf, hid], ?_, by simp [buildTx, hid], ?_⟩
  · rw [recibir_trace env data r hr]
    have hpost : (subir_a_pinata env (pinataPayloadOf r)).2 =
        [.pinataPost (pinataPayloadOf r)] := by
      cases hp : env.pinata <;> simp [subir_a_pinata, hjwt, hp]
    simp [hpost]
  · rw [recibir_trace env data r hr]
    simp [ledgerTrace]

/-- Witness for C10 at a payload with no `device_id`. -/
theorem default_device_id_witness :
    (⟨.s "unknown-device", 25, 70, 5⟩ : Reading).device_id = .s "unknown-device" ∧
    (pinataPayloadOf ⟨.s "unknown-device", 25, 70, 5⟩).device_id = .s "unknown-device" ∧
    Effect.pinataPost (pinataPayloadOf ⟨.s "unknown-device", 25, 70, 5⟩) ∈
      (recibir_lectura envW dataNoDev).2 ∧
    (buildTx envW ⟨.s "unknown-device", 25, 70, 5⟩
      (cidOf envW ⟨.s "unknown-device", 25, 70, 5⟩)).deviceId = .s "unknown-device" ∧
    Effect.sendRawTransaction (buildTx envW ⟨.s "unknown-device", 25, 70, 5⟩
      (cidOf envW ⟨.s "unknown-device", 25, 70, 5⟩)) ∈ (recibir_lectura envW dataNoDev).2 :=
  default_device_id envW dataNoDev ⟨.s "unknown-device", 25, 70, 5⟩ rfl rfl (by decide)
